import Mathlib

/-!
Shallow embedding of the shared-memory hashmap core (`src/hashmap.c` of
mah0x211/lua-hashmap) in Lean 4, used to settle the claims about its
natural-language specification.

Modelling conventions:

* `size_t` / `uint64_t` values are `Nat`; arithmetic results that the C code
  stores into 64-bit objects are reduced `% 2 ^ 64` where wraparound is
  possible.  `int` values (bucket indices, loop counters) stay `Nat` except
  where signedness matters (`ssize_t` binary-search bounds use `Int`).
* The region is one contiguous buffer in C.  Here the header fields are a
  structure, the bucket-flags words / bucket slots / freelist slots are lists
  (the freelist list always has length `max_free_blocks`, its live part being
  the first `num_free_blocks` entries, exactly as the C array), and the data
  arena is a byte list `data` of length `memory_size` indexed by absolute
  region offsets; all arena reads and writes of the C code go through it.
  Multi-byte arena loads/stores use the host's native byte order, modelled as
  little-endian.
* The expression `1 << s` of the C code has type `int` (32 bits).  For
  `s >= 31` the C shift is undefined/implementation-defined; it is modelled
  here as the mathematical shift truncated to 32 bits and then converted to
  `uint64_t` with sign extension, which is what conventional two's-complement
  constant folding produces.  Under this model (as under the alternative
  shift-count-masking model) the produced 64-bit mask can never have a bit
  at position >= 32, which is the fact the affected claims depend on.
* `pthread` locks and `mmap` are modelled as always succeeding; the
  `HM_LOCK_FAILED` / `HM_MAP_FAILED` paths are outside the state machine.
-/

set_option maxRecDepth 8000 in
/-- 2 ^ 64, the modulus of `size_t` / `uint64_t` arithmetic. -/
def U64 : Nat := 18446744073709551616

/-- 2 ^ 32, the modulus of 32-bit `int` arithmetic. -/
def U32 : Nat := 4294967296

/-- `SIZE_MAX`, the sentinel returned by `find_free_block`. -/
def SIZE_MAX : Nat := U64 - 1

/-- The error enumeration `hm_error_t` of `hashmap.h`. -/
inductive HmError where
  | HM_OK
  | HM_MAP_FAILED
  | HM_LOCK_FAILED
  | HM_MEMORY_SIZE_TOO_SMALL
  | HM_NO_SPACE
  | HM_NO_EMPTY_BUCKET
  | HM_NO_EMPTY_FREE_BLOCK
  | HM_NOT_FOUND
deriving DecidableEq, Repr

export HmError (HM_OK HM_MAP_FAILED HM_LOCK_FAILED HM_MEMORY_SIZE_TOO_SMALL
  HM_NO_SPACE HM_NO_EMPTY_BUCKET HM_NO_EMPTY_FREE_BLOCK HM_NOT_FOUND)

/-- `sizeof(hashmap_header_t)`: one `size_t`, four `int32_t`, five `size_t`
on an LP64 host: 8 + 16 + 40 = 64 bytes. -/
def header_sizeof : Nat := 64

/-- `sizeof(hashmap_record_t)`: `uint64_t hash` plus two `size_t` sizes. -/
def record_sizeof : Nat := 24

/-- `get_aligned_size`: round up to the alignment of `hashmap_region_t`
(`uintptr_t`, hence 8): `(size + align - 1) & ~(align - 1)` in `size_t`. -/
def get_aligned_size (size : Nat) : Nat :=
  ((size + 7) % U64) / 8 * 8

/-- The statistics structure `hashmap_stat_t`. -/
structure HashmapStat where
  memory_size : Nat
  max_bucket_flags : Nat
  max_buckets : Nat
  max_free_blocks : Nat
  bucket_flags_size : Nat
  buckets_size : Nat
  free_blocks_size : Nat
  header_size : Nat
  data_size : Nat
  record_header_size : Nat
  record_size : Nat
  used_buckets : Nat
  used_free_blocks : Nat
  used_data_size : Nat
deriving DecidableEq, Repr

/-- `hm_calc_required_memory_size`.  The C function fills a caller-provided
`hashmap_stat_t` (zero-initialized at its call sites) and returns an error
code; fields it does not assign keep their zero.  `none` models the
`HM_MEMORY_SIZE_TOO_SMALL` return (both sizing inputs zero).  Note that in
the source the `if (memory_size)` block is an independent `if`, not an
`else`, so with both `record_kv_size > 0` and `memory_size > 0` it
overwrites `record_size` and `data_size` computed by the first block. -/
def hm_calc_required_memory_size (memory_size max_buckets max_free_blocks
    record_kv_size : Nat) : Option HashmapStat :=
  if max_buckets = 0 ∧ memory_size = 0 then
    none
  else
    let max_buckets := if max_buckets = 0 then memory_size / 4 / 8 else max_buckets
    let max_free_blocks := if max_free_blocks = 0 then max_buckets else max_free_blocks
    let max_bucket_flags := (max_buckets + 63) / 64
    let bucket_flags_size := max_bucket_flags * 8 % U64
    let buckets_size := max_buckets * 8 % U64
    let free_blocks_size := max_free_blocks * 8 % U64
    let memory_size0 := (header_sizeof + bucket_flags_size + buckets_size
      + free_blocks_size) % U64
    let record_header_size := record_sizeof + 2
    let (record_size, data_size, memory_size1) :=
      if record_kv_size ≠ 0 then
        let rs := (record_header_size + record_kv_size) % U64
        let ds := rs * max_buckets % U64
        (rs, ds, (memory_size0 + ds) % U64)
      else
        (0, 0, memory_size0)
    let (record_size, data_size) :=
      if memory_size ≠ 0 then
        if memory_size > memory_size1 then
          ((memory_size - memory_size1) / record_header_size, memory_size - memory_size1)
        else (0, 0)
      else (record_size, data_size)
    some {
      memory_size := get_aligned_size memory_size1
      max_bucket_flags := max_bucket_flags
      max_buckets := max_buckets
      max_free_blocks := max_free_blocks
      bucket_flags_size := bucket_flags_size
      buckets_size := buckets_size
      free_blocks_size := free_blocks_size
      header_size := header_sizeof
      data_size := data_size
      record_header_size := record_header_size
      record_size := record_size
      used_buckets := 0
      used_free_blocks := 0
      used_data_size := 0 }

/-- Little-endian bytes of the low 64 bits of `v` (a `size_t`/`uint64_t`
store into the region). -/
def toLE8 (v : Nat) : List Nat :=
  [(v % U64) % 256, ((v % U64) >>> 8) % 256, ((v % U64) >>> 16) % 256,
   ((v % U64) >>> 24) % 256, ((v % U64) >>> 32) % 256, ((v % U64) >>> 40) % 256,
   ((v % U64) >>> 48) % 256, ((v % U64) >>> 56) % 256]

/-- Store a list of bytes into the buffer at consecutive positions. -/
def writeBytes : List Nat → Nat → List Nat → List Nat
  | d, _, [] => d
  | d, off, b :: bs => writeBytes (d.set off b) (off + 1) bs

/-- Store a 64-bit value at a byte offset. -/
def write64 (d : List Nat) (off v : Nat) : List Nat :=
  writeBytes d off (toLE8 v)

/-- Load the `n` bytes at a byte offset. -/
def readBytes (d : List Nat) (off n : Nat) : List Nat :=
  (List.range n).map fun k => d.getD (off + k) 0

/-- Load a 64-bit value from a byte offset. -/
def read64 (d : List Nat) (off : Nat) : Nat :=
  d.getD off 0 + (d.getD (off + 1) 0 <<< 8) + (d.getD (off + 2) 0 <<< 16)
    + (d.getD (off + 3) 0 <<< 24) + (d.getD (off + 4) 0 <<< 32)
    + (d.getD (off + 5) 0 <<< 40) + (d.getD (off + 6) 0 <<< 48)
    + (d.getD (off + 7) 0 <<< 56)

/-- The mapped region together with its header, as one state.  The header
fields mirror `hashmap_header_t`; `bucket_flags`, `buckets` and `freelist`
are the three metadata arrays; `data` is the byte buffer of the whole region
through which every data-arena access of the C code goes. -/
structure Region where
  memory_size : Nat
  max_bucket_flags : Nat
  max_buckets : Nat
  max_free_blocks : Nat
  num_free_blocks : Nat
  bucket_flags_offset : Nat
  buckets_offset : Nat
  freelist_offset : Nat
  data_offset : Nat
  data_tail : Nat
  bucket_flags : List Nat
  buckets : List Nat
  freelist : List Nat
  data : List Nat
deriving DecidableEq, Repr

/-- `hm_init`: align the requested size, recompute the layout with
`record_kv_size = 0`, fail when the aligned request is below the computed
requirement, otherwise build the zero-filled region with the header
populated exactly as the source does (`mmap` gives zero-filled memory).
`none` covers the `HM_MEMORY_SIZE_TOO_SMALL` path. -/
def hm_init (memory_size max_buckets max_free_blocks : Nat) : Option Region :=
  let memory_size := get_aligned_size memory_size
  match hm_calc_required_memory_size memory_size max_buckets max_free_blocks 0 with
  | none => none
  | some s =>
    if memory_size < s.memory_size then
      none
    else
      let bucket_flags_offset := header_sizeof
      let buckets_offset := bucket_flags_offset + s.bucket_flags_size
      let freelist_offset := buckets_offset + s.buckets_size
      let data_offset := freelist_offset + s.free_blocks_size
      some {
        memory_size := memory_size
        max_bucket_flags := s.max_bucket_flags
        max_buckets := s.max_buckets
        max_free_blocks := s.max_free_blocks
        num_free_blocks := 0
        bucket_flags_offset := bucket_flags_offset
        buckets_offset := buckets_offset
        freelist_offset := freelist_offset
        data_offset := data_offset
        data_tail := data_offset
        bucket_flags := List.replicate s.max_bucket_flags 0
        buckets := List.replicate s.max_buckets 0
        freelist := List.replicate s.max_free_blocks 0
        data := List.replicate memory_size 0 }

/-- A fallback region for extracting from `Option Region` at concrete,
always-`some` inputs. -/
def emptyRegion : Region :=
  ⟨0, 0, 0, 0, 0, 0, 0, 0, 0, 0, [], [], [], []⟩

/-- `has_empty_free_block`: the freelist is not full. -/
def has_empty_free_block (reg : Region) : Prop :=
  reg.num_free_blocks < reg.max_free_blocks

instance (reg : Region) : Decidable (has_empty_free_block reg) := by
  unfold has_empty_free_block; infer_instance

/-- The 64-bit value of the C expression `(uint64_t)(1 << s)` where `1` is a
32-bit `int`: the shift truncated to 32 bits, sign-extended to 64 bits. -/
def int_shl1_u64 (s : Nat) : Nat :=
  let v := 1 <<< s % U32
  if v < U32 / 2 then v else U64 - U32 + v

/-- The 64-bit value of the C expression `(uint64_t)(~(1 << s))` with a
32-bit `int` operand: bitwise complement inside 32 bits, sign-extended. -/
def int_shl1_not_u64 (s : Nat) : Nat :=
  let v := U32 - 1 - 1 <<< s % U32
  if v < U32 / 2 then v else U64 - U32 + v

/-- `set_used_bits`: `bucket_flags[i / 64] |= 1 << (i % 64)` with the 32-bit
`1` of the source. -/
def set_used_bits (reg : Region) (bucket_index : Nat) : Region :=
  let w := reg.bucket_flags.getD (bucket_index / 64) 0 ||| int_shl1_u64 (bucket_index % 64)
  { reg with bucket_flags := reg.bucket_flags.set (bucket_index / 64) w }

/-- `unset_used_bits`: `bucket_flags[i / 64] &= ~(1 << (i % 64))` with the
32-bit `1` of the source. -/
def unset_used_bits (reg : Region) (bucket_index : Nat) : Region :=
  let w := reg.bucket_flags.getD (bucket_index / 64) 0 &&& int_shl1_not_u64 (bucket_index % 64)
  { reg with bucket_flags := reg.bucket_flags.set (bucket_index / 64) w }

/-- `is_used_bucket`: `(bucket_flags[i / 64] >> (i % 64)) & 1`; the left
operand is the full 64-bit word, so this shift is a genuine 64-bit shift. -/
def is_used_bucket (reg : Region) (bucket_index : Nat) : Nat :=
  reg.bucket_flags.getD (bucket_index / 64) 0 >>> (bucket_index % 64) &&& 1

/-- One step of `hash_string`: `hash = ((hash << 5) + hash) + c` in
`uint64_t`, where `c` is the `int` promotion of a (signed) `char`, so a byte
at or above 128 contributes its value minus 256 (mod 2 ^ 64). -/
def hash_step (h b : Nat) : Nat :=
  (33 * h + (if b < 128 then b else U64 - 256 + b)) % U64

/-- The loop of `hash_string`: consume bytes until the terminating NUL
(`while ((c = *key++))`).  The modelled buffer is the key bytes; reaching
the end of the list models reaching the NUL terminator the C caller
guarantees after them. -/
def hash_string_go : Nat → List Nat → Nat
  | h, [] => h
  | h, b :: bs => if b = 0 then h else hash_string_go (hash_step h b) bs

/-- `hash_string`: 64-bit djb2 starting from 5381, stopping at the first
NUL byte. -/
def hash_string (key : List Nat) : Nat :=
  hash_string_go 5381 key

/-- The 64-bit djb2 hash over all bytes of the string, as the specification
words it (each byte contributing its value). -/
def djb2_64 (key : List Nat) : Nat :=
  key.foldl (fun h b => (33 * h + b) % U64) 5381

/-- The binary-search loop of `add_free_block`: `ssize_t left, right` with
`mid = (left + right) / 2`, comparing the stored size of the block each
freelist entry points to against the (already prefix-extended) new size:
lower-bound search.  `fuel` bounds the iteration count; the interval
shrinks every step, so `num_free_blocks + 1` iterations always suffice. -/
def afb_search (reg : Region) (size : Nat) : Nat → Int → Int → Int
  | 0, left, _ => left
  | fuel + 1, left, right =>
    if left ≤ right then
      let mid := (left + right) / 2
      let offset := reg.freelist.getD mid.toNat 0
      let block_size := read64 reg.data offset
      if block_size < size then afb_search reg size fuel (mid + 1) right
      else afb_search reg size fuel left (mid - 1)
    else left

/-- The insertion point `left` that `add_free_block` computes for a new
stored size: 0 when the freelist is empty (the loop is not entered),
otherwise the binary-search result over the live entries. -/
def add_free_block_left (reg : Region) (size : Nat) : Nat :=
  if reg.num_free_blocks = 0 then 0
  else (afb_search reg size (reg.num_free_blocks + 1) 0
    ((reg.num_free_blocks : Int) - 1)).toNat

/-- The bubble loop after an adjacency merge in `add_free_block`: while the
next entry's stored size is below the merged size, move it left and keep
the merged entry (offset `offset`) moving right.  `n = num_free_blocks - 1`;
`fuel` bounds the iterations (`num_free_blocks` suffices). -/
def afb_bubble (data : List Nat) (offset size : Nat) :
    Nat → Nat → Nat → List Nat → List Nat
  | 0, _, _, fl => fl
  | fuel + 1, i, n, fl =>
    if i < n then
      let next := fl.getD (i + 1) 0
      if read64 data next < size then
        afb_bubble data offset size fuel (i + 1) n ((fl.set i next).set (i + 1) offset)
      else fl
    else fl

/-- The right-shift loop of `add_free_block`:
`for (i = num_free_blocks - 1; i >= left; i--) freelist[i + 1] = freelist[i]`.
Called with `n = num_free_blocks`; processes `i = n - 1` down to `left`. -/
def afb_shift (left : Nat) : List Nat → Nat → List Nat
  | fl, 0 => fl
  | fl, n + 1 =>
    if left ≤ n then afb_shift left (fl.set (n + 1) (fl.getD n 0)) n
    else fl

/-- `add_free_block(reg, offset, size)`: extend the payload size by the
8-byte prefix, binary-search the insertion point, then either merge with
the adjacent entry at `left` (`offset + size == freelist[left]`, an index
that can be one past the live prefix) and bubble the merged entry rightward,
or shift the tail entries right and insert the new entry at `left`.  The
asserts (`has_empty_free_block`, `size >= 8`) are the C preconditions; the
model executes the same writes unconditionally. -/
def add_free_block (reg : Region) (offset size0 : Nat) : Region :=
  let size := size0 + 8
  let left := add_free_block_left reg size
  if reg.num_free_blocks > 0 ∧ offset + size = reg.freelist.getD left 0 then
    let size := size + read64 reg.data (reg.freelist.getD left 0)
    let fl := reg.freelist.set left offset
    let data := write64 reg.data offset size
    let fl := afb_bubble data offset size reg.num_free_blocks left
      (reg.num_free_blocks - 1) fl
    { reg with freelist := fl, data := data }
  else
    let fl := if reg.num_free_blocks > 0 then afb_shift left reg.freelist
      reg.num_free_blocks else reg.freelist
    let fl := fl.set left offset
    let data := write64 reg.data offset size
    { reg with
        freelist := fl
        data := data
        num_free_blocks := reg.num_free_blocks + 1 }

/-- The left-shift loop of `remove_free_block`:
`for (i = idx; i < n; i++) freelist[i] = freelist[i + 1]` with
`n = num_free_blocks - 1`. -/
def rfb_shift (n : Nat) : Nat → Nat → List Nat → List Nat
  | 0, _, fl => fl
  | fuel + 1, i, fl =>
    if i < n then rfb_shift n fuel (i + 1) (fl.set i (fl.getD (i + 1) 0))
    else fl

/-- `remove_free_block`: close the gap at `idx` and decrement the count. -/
def remove_free_block (reg : Region) (idx : Nat) : Region :=
  let n := reg.num_free_blocks - 1
  { reg with
      freelist := rfb_shift n n idx reg.freelist
      num_free_blocks := reg.num_free_blocks - 1 }

/-- The binary-search loop of `find_free_block`, which can return from
inside on an exact size match (removing the entry) or fall out with the
final `left`. -/
def ffb_search (reg : Region) (required : Nat) :
    Nat → Int → Int → Sum (Nat × Region) Int
  | 0, left, _ => Sum.inr left
  | fuel + 1, left, right =>
    if left ≤ right then
      let mid := (left + right) / 2
      let offset := reg.freelist.getD mid.toNat 0
      let block_size := read64 reg.data offset
      if block_size = required then Sum.inl (offset, remove_free_block reg mid.toNat)
      else if block_size > required then ffb_search reg required fuel left (mid - 1)
      else ffb_search reg required fuel (mid + 1) right
    else Sum.inr left

/-- `find_free_block(reg, required_space)`: `SIZE_MAX` when the freelist is
empty or no block fits; exact match removes and returns the block; a larger
block at the final `left` is either taken whole (`remaining == 0`), refused
(`remaining < 8` or freelist full), or split: the head is returned and
`add_free_block(offset + required, remaining)` re-inserts the tail.
Returns the chosen offset together with the mutated region. -/
def find_free_block (reg : Region) (required_space : Nat) : Nat × Region :=
  if reg.num_free_blocks = 0 then (SIZE_MAX, reg)
  else
    match ffb_search reg required_space (reg.num_free_blocks + 1) 0
      ((reg.num_free_blocks : Int) - 1) with
    | Sum.inl (offset, reg') => (offset, reg')
    | Sum.inr left =>
      if left < (reg.num_free_blocks : Int) then
        let l := left.toNat
        let offset := reg.freelist.getD l 0
        let block_size := read64 reg.data offset
        let remaining_size := block_size - required_space
        if remaining_size = 0 then (offset, remove_free_block reg l)
        else if remaining_size < 8 ∨ ¬ has_empty_free_block reg then (SIZE_MAX, reg)
        else
          let reg' := remove_free_block reg l
          (offset, add_free_block reg' (offset + required_space) remaining_size)
      else (SIZE_MAX, reg)

/-- The probe loop of `find_record`:
`for (i = 0; i < max_buckets; ++i)` with `bucket_index = (index + i) % max`.
A slot with offset 0 terminates the probe, reporting itself as the
insertion candidate when none was recorded; a used slot whose record
matches `(hash, key_size, memcmp)` is returned; any other slot (tombstone
or non-matching record) is probed through.  `found` carries `*found_index`
(initialized to `max_buckets`); `fuel` is the number of remaining
iterations. -/
def find_record_go (reg : Region) (hash : Nat) (key : List Nat) (key_len : Nat)
    (index : Nat) : Nat → Nat → Nat → Option Nat × Nat
  | 0, _, found => (none, found)
  | fuel + 1, i, found =>
    let bucket_index := (index + i) % reg.max_buckets
    let offset := reg.buckets.getD bucket_index 0
    if offset = 0 then
      (none, if found = reg.max_buckets then bucket_index else found)
    else if is_used_bucket reg bucket_index = 1 then
      if read64 reg.data offset = hash ∧ read64 reg.data (offset + 8) = key_len ∧
          readBytes reg.data (offset + record_sizeof) key_len = key then
        (some offset, bucket_index)
      else find_record_go reg hash key key_len index fuel (i + 1) found
    else find_record_go reg hash key key_len index fuel (i + 1) found

/-- `find_record`: hash the key, start at the home slot
`hash % max_buckets`, probe linearly.  Returns the matched record's offset
(or `none`) together with the final `*found_index`. -/
def find_record (reg : Region) (key : List Nat) (key_len : Nat) : Option Nat × Nat :=
  let hash := hash_string key
  let index := hash % reg.max_buckets
  find_record_go reg hash key key_len index reg.max_buckets 0 reg.max_buckets

/-- The record footprint `hm_get_record_size` computed from the stored
header at `offset`: `sizeof(hashmap_record_t) + key_size + value_size + 2`. -/
def stored_record_size (reg : Region) (offset : Nat) : Nat :=
  record_sizeof + read64 reg.data (offset + 8) + read64 reg.data (offset + 16) + 2

/-- The tail of `hm_insert` shared by the fresh-insert and
different-size-overwrite paths: choose tail space when
`memory_size - data_tail >= required`, otherwise a free block; on success
write the bucket slot, the used bit, the record header and the
NUL-terminated key and value bytes, and advance `data_tail` only when tail
space was used. -/
def hm_insert_place (reg : Region) (key : List Nat) (key_len : Nat)
    (value : List Nat) (value_len : Nat) (bucket_index required : Nat) :
    HmError × Region :=
  let available_space := reg.memory_size - reg.data_tail
  let (insert_offset, reg1) :=
    if available_space < required then find_free_block reg required
    else (reg.data_tail, reg)
  if available_space < required ∧ insert_offset = SIZE_MAX then
    (HM_NO_SPACE, reg1)
  else
    let reg2 := set_used_bits
      { reg1 with buckets := reg1.buckets.set bucket_index insert_offset }
      bucket_index
    let d := write64 reg2.data insert_offset (hash_string key)
    let d := write64 d (insert_offset + 8) key_len
    let d := write64 d (insert_offset + 16) value_len
    let d := writeBytes d (insert_offset + record_sizeof) key
    let d := d.set (insert_offset + record_sizeof + key_len) 0
    let d := writeBytes d (insert_offset + record_sizeof + key_len + 1) value
    let d := d.set (insert_offset + record_sizeof + key_len + 1 + value_len) 0
    let reg3 := { reg2 with data := d }
    if required ≤ available_space then
      (HM_OK, { reg3 with data_tail := reg3.data_tail + required })
    else
      (HM_OK, reg3)

/-- `hm_insert`: probe; fail `HM_NO_EMPTY_BUCKET` when no record and no
candidate slot; on a found record of equal value size overwrite the value
bytes in place; otherwise (different size) require a freelist slot, free
the old record, and fall through to the shared placement tail. -/
def hm_insert (reg : Region) (key : List Nat) (key_len : Nat)
    (value : List Nat) (value_len : Nat) : HmError × Region :=
  match find_record reg key key_len with
  | (none, bucket_index) =>
    if bucket_index = reg.max_buckets then (HM_NO_EMPTY_BUCKET, reg)
    else hm_insert_place reg key key_len value value_len bucket_index
      (record_sizeof + key_len + value_len + 2)
  | (some roff, bucket_index) =>
    if read64 reg.data (roff + 16) = value_len then
      let key_size := read64 reg.data (roff + 8)
      (HM_OK, { reg with
        data := writeBytes reg.data (roff + record_sizeof + key_size + 1) value })
    else if ¬ has_empty_free_block reg then (HM_NO_EMPTY_FREE_BLOCK, reg)
    else
      let reg1 := add_free_block reg roff (stored_record_size reg roff)
      hm_insert_place reg1 key key_len value value_len bucket_index
        (record_sizeof + key_len + value_len + 2)

/-- `hm_delete`: probe; `HM_NOT_FOUND` leaves the region untouched;
otherwise require a freelist slot, free the record's space and clear the
bucket's used bit (the slot keeps its stale offset). -/
def hm_delete (reg : Region) (key : List Nat) (key_len : Nat) : HmError × Region :=
  match find_record reg key key_len with
  | (none, _) => (HM_NOT_FOUND, reg)
  | (some roff, bucket_index) =>
    if ¬ has_empty_free_block reg then (HM_NO_EMPTY_FREE_BLOCK, reg)
    else
      let reg1 := add_free_block reg roff (stored_record_size reg roff)
      (HM_OK, unset_used_bits reg1 bucket_index)

/-- `hm_search`: probe under the read lock; on a hit return the stored
value bytes and `value_size`, otherwise `HM_NOT_FOUND`. -/
def hm_search (reg : Region) (key : List Nat) (key_len : Nat) :
    HmError × List Nat × Nat :=
  match find_record reg key key_len with
  | (none, _) => (HM_NOT_FOUND, [], 0)
  | (some roff, _) =>
    let key_size := read64 reg.data (roff + 8)
    let value_size := read64 reg.data (roff + 16)
    (HM_OK, readBytes reg.data (roff + record_sizeof + key_size + 1) value_size,
      value_size)

/-- `count_bits`: the SWAR popcount of a 64-bit word, with the `uint64_t`
subtraction and multiplication wrapped mod 2 ^ 64. -/
def count_bits (x : Nat) : Nat :=
  let x := (x + U64 - (x >>> 1 &&& 6148914691236517205)) % U64
  let x := ((x &&& 3689348814741910323) + (x >>> 2 &&& 3689348814741910323)) % U64
  let x := (x + x >>> 4) % U64 &&& 1085102592571150095
  ((x * 72340172838076673) % U64) >>> 56

/-- `count_bucket_flags`: sum of `count_bits` over the
`max_bucket_flags` bitmap words. -/
def count_bucket_flags (reg : Region) : Nat :=
  (List.range reg.max_bucket_flags).foldl
    (fun acc i => acc + count_bits (reg.bucket_flags.getD i 0)) 0

/-! Concrete regions used to exercise the operations.  Every one of them is
reachable by the public API: an `hm_init` followed by inserts/deletes. -/

/-- A map with 33 buckets (one 64-bit flags word, indices up to 32):
`hm_init(400, 33, 1)`.  Fixed overhead 344 bytes, arena `[344, 400)`. -/
def reg33 : Region := (hm_init 400 33 1).getD emptyRegion

/-- A small map `hm_init(200, 4, 4)`: fixed overhead 136, arena `[136, 200)`. -/
def regT0 : Region := (hm_init 200 4 4).getD emptyRegion

/-- `regT0` after `insert("a", "x")`: key `[97]` has home slot 2, record at
offset 136. -/
def regT1 : Region := (hm_insert regT0 [97] 1 [120] 1).2

/-- `regT1` after `delete("a")`: bucket 2 keeps the stale offset 136 with
its used bit cleared — a tombstone at the home slot of `"a"`. -/
def regT2 : Region := (hm_delete regT1 [97] 1).2

/-- `regT0` after `insert("abc", "xyz")` (home slot 3, record at 136) and
`insert("abd", "xyz")` (home slot 0, record at 168): the arena is full
(`data_tail = 200`). -/
def regS2 : Region :=
  (hm_insert (hm_insert regT0 [97, 98, 99] 3 [120, 121, 122] 3).2
    [97, 98, 100] 3 [120, 121, 122] 3).2

/-- `regS2` after `delete("abc")`: one free block at offset 136 with stored
size 40 (footprint 32 plus the 8 the allocator adds), spanning `[136, 176)`
by its own accounting. -/
def regS3 : Region := (hm_delete regS2 [97, 98, 99] 3).2

/-- `hm_init(200, 4, 2)`: fixed overhead 120, arena `[120, 200)`,
freelist capacity 2. -/
def regF0 : Region := (hm_init 200 4 2).getD emptyRegion

/-- `regF0` after `insert("a", "x")` (record at 120, footprint 28) and
`insert("b", "vwxyz")` (record at 148, footprint 32). -/
def regF2 : Region :=
  (hm_insert (hm_insert regF0 [97] 1 [120] 1).2 [98] 1 [118, 119, 120, 121, 122] 5).2

/-- `regF2` after `delete("a")`: one live freelist entry, offset 120,
stored size 36. -/
def regF3 : Region := (hm_delete regF2 [97] 1).2

/-- `regT0` after inserting the key `"a\x00b"` (bytes `[97, 0, 98]`, length
3, an embedded NUL) with value `"x"`. -/
def regN1 : Region := (hm_insert regT0 [97, 0, 98] 3 [120] 1).2

/-! Theorems settling the claims. -/

/-- C1.  The claim says a key inserted by a successful `hm_insert` and never
deleted or overwritten is found by `hm_search` with its value.  The code
violates it: on the reachable 33-bucket map `reg33`, inserting key `"A"`
(home slot 32) succeeds, but `set_used_bits`' 32-bit `1 << (32 % 64)` mask
cannot set flag bit 32, so the slot is left looking like a tombstone and
the immediate `hm_search` of the same key reports `HM_NOT_FOUND`. -/
theorem hm_insert_ok_but_search_not_found :
    (hm_insert reg33 [65] 1 [120] 1).1 = HM_OK ∧
    (hm_search (hm_insert reg33 [65] 1 [120] 1).2 [65] 1).1 = HM_NOT_FOUND := by
  decide

set_option maxRecDepth 8000 in
/-- C2.  The claim says the used-flag mask is `1` widened to 64 bits before
the shift by `i % 64`, so `set_used(i)` then `is_used(i)` yields 1 even for
`i % 64 >= 32`.  In the code the `1` is a 32-bit `int`: for bucket index 32
(on the reachable 33-bucket map) the mask has no bit to contribute at
position 32 and `is_used` still reads 0, while a low index (5) works. -/
theorem set_used_bits_high_index_no_effect :
    is_used_bucket (set_used_bits reg33 32) 32 = 0 ∧
    is_used_bucket (set_used_bits reg33 5) 5 = 1 ∧ 32 % 64 = 32 := by
  decide

set_option maxRecDepth 8000 in
/-- C3.  The claim (and spec) say the split in `find_free_block` re-inserts
the tail with payload `remainder - 8`, so the tail's stored total equals the
remainder and stays inside the original block.  The code passes `remainder`
itself: on the reachable region `regS3` (one free block at offset 136 with
stored size 40), allocating 28 bytes leaves remainder 12 but re-inserts a
tail block at 164 with stored size 20, which by the freelist's own size
accounting spans `[164, 184)` — 8 bytes beyond the original block's end
176, overlapping the live record that follows. -/
theorem find_free_block_split_tail_escapes_block :
    read64 regS3.data 136 = 40 ∧ regS3.freelist.getD 0 0 = 136 ∧
    (find_free_block regS3 28).1 = 136 ∧
    (find_free_block regS3 28).2.freelist.getD 0 0 = 164 ∧
    read64 (find_free_block regS3 28).2.data 164 = 20 ∧
    40 - 28 = 12 ∧ (20 : Nat) ≠ 12 ∧ 164 + 20 > 136 + 40 := by
  decide

set_option maxRecDepth 8000 in
/-- C4 counterexample.  The claim says the earliest tombstone slot probed
is the insertion candidate reported to insert.  On the reachable region
`regT2` the home slot 2 of key `"a"` is a tombstone (stale offset 136, used
bit 0), yet `find_record` probes past it and reports candidate 3 (the first
offset-zero slot), not 2. -/
theorem find_record_candidate_not_tombstone_cex :
    hash_string [97] % regT2.max_buckets = 2 ∧
    regT2.buckets.getD 2 0 = 136 ∧ is_used_bucket regT2 2 = 0 ∧
    find_record regT2 [97] 1 = (none, 3) := by
  decide

set_option maxRecDepth 8000 in
/-- Helper for C4: throughout the probe loop the carried `*found_index`
stays at its initial `max_buckets`, so when the loop reports a miss with a
candidate other than `max_buckets`, that candidate is the offset-zero slot
that terminated the probe. -/
theorem find_record_go_candidate_zero (reg : Region) (hash : Nat) (key : List Nat)
    (key_len index : Nat) :
    ∀ fuel i, (find_record_go reg hash key key_len index fuel i reg.max_buckets).1 = none →
      (find_record_go reg hash key key_len index fuel i reg.max_buckets).2 ≠ reg.max_buckets →
      reg.buckets.getD
        (find_record_go reg hash key key_len index fuel i reg.max_buckets).2 0 = 0 := by
  intro fuel
  induction fuel with
  | zero =>
    intro i h1 h2
    exact absurd rfl h2
  | succ n ih =>
    intro i h1 h2
    simp only [find_record_go] at h1 h2 ⊢
    by_cases hoff : reg.buckets.getD ((index + i) % reg.max_buckets) 0 = 0
    · simp only [hoff, if_pos, if_true, reduceIte] at h1 h2 ⊢
    · simp only [hoff, if_false, reduceIte] at h1 h2 ⊢
      by_cases hused : is_used_bucket reg ((index + i) % reg.max_buckets) = 1
      · simp only [hused, reduceIte] at h1 h2 ⊢
        by_cases hmatch : read64 reg.data (reg.buckets.getD ((index + i) % reg.max_buckets) 0) = hash ∧
            read64 reg.data (reg.buckets.getD ((index + i) % reg.max_buckets) 0 + 8) = key_len ∧
            readBytes reg.data (reg.buckets.getD ((index + i) % reg.max_buckets) 0 + record_sizeof) key_len = key
        · simp only [hmatch, reduceIte] at h1
          exact absurd h1 (by simp)
        · simp only [hmatch, reduceIte] at h1 h2 ⊢
          exact ih (i + 1) h1 h2
      · simp only [hused, reduceIte] at h1 h2 ⊢
        exact ih (i + 1) h1 h2

/-- C4 amended.  Probing does not terminate at a tombstone (it probes
through), and the insertion candidate `find_record` reports on a miss is
the first offset-zero slot of the probe sequence — never a tombstone: any
candidate other than the table-full sentinel is a slot whose offset is 0. -/
theorem find_record_miss_candidate_is_zero_slot (reg : Region) (key : List Nat)
    (key_len j : Nat) (h1 : (find_record reg key key_len).1 = none)
    (h2 : (find_record reg key key_len).2 = j) (h3 : j ≠ reg.max_buckets) :
    reg.buckets.getD j 0 = 0 := by
  subst h2
  exact find_record_go_candidate_zero reg (hash_string key) key key_len
    (hash_string key % reg.max_buckets) reg.max_buckets 0 h1 h3

/-- C4 witness: on `regT2` the reported candidate 3 is indeed a slot with
offset 0. -/
theorem find_record_miss_candidate_is_zero_slot_witness :
    (find_record regT2 [97] 1).1 = none ∧ regT2.buckets.getD 3 0 = 0 :=
  ⟨by decide, find_record_miss_candidate_is_zero_slot regT2 [97] 1 3
    (by decide) (by decide) (by decide)⟩

/-- C5 counterexample.  The claim says that whenever `record_kv_size > 0`
the reported `record_size` is `record_header + 2 + record_kv_size` and
`data_size` is `record_size * max_buckets`, the memory-size-derived
advisory values applying only when `record_kv_size = 0`.  But the
`if (memory_size)` block in the source is not an `else`: with
`memory_size = 1000, max_buckets = 4, max_free_blocks = 4,
record_kv_size = 10` it overwrites both fields (record_size 27 instead of
36, data_size 720 instead of 144). -/
theorem hm_calc_memory_mode_overwrites_record_mode_cex :
    (hm_calc_required_memory_size 1000 4 4 10).map HashmapStat.record_size = some 27 ∧
    (hm_calc_required_memory_size 1000 4 4 10).map HashmapStat.data_size = some 720 ∧
    (27 : Nat) ≠ 26 + 10 ∧ (720 : Nat) ≠ (26 + 10) * 4 := by
  decide

set_option maxRecDepth 8000 in
/-- C5 amended.  With `record_kv_size > 0` and `memory_size = 0` (the
record-sizing mode, as `hm_init` never mixes the two), the reported
`record_size` is `record_header_size + record_kv_size = 26 + kv`, the
reported `data_size` is `record_size * max_buckets`, and that data size is
added to the fixed overhead in the reported total (then aligned).  When
`memory_size > 0` the advisory recomputation overwrites `record_size` and
`data_size` regardless of `record_kv_size`. -/
theorem hm_calc_record_mode_fields (maxb maxfb kv : Nat)
    (h1 : maxb ≠ 0) (h2 : kv ≠ 0) :
    ∃ s, hm_calc_required_memory_size 0 maxb maxfb kv = some s ∧
      s.record_size = (26 + kv) % U64 ∧
      s.data_size = s.record_size * maxb % U64 ∧
      s.memory_size = get_aligned_size ((header_sizeof + s.bucket_flags_size +
        s.buckets_size + s.free_blocks_size + s.data_size) % U64) := by
  unfold hm_calc_required_memory_size
  rw [if_neg (by simp [h1])]
  simp only [h1, h2, reduceIte, ne_eq, not_true_eq_false, not_false_eq_true]
  refine ⟨_, rfl, ?_, ?_, ?_⟩
  · rfl
  · rfl
  · simp only [record_sizeof, header_sizeof]
    rw [Nat.mod_add_mod]

/-- C5 witness: the record-mode fields at `max_buckets = 4,
max_free_blocks = 4, record_kv_size = 10`. -/
theorem hm_calc_record_mode_fields_witness :
    (4 : Nat) ≠ 0 ∧ (10 : Nat) ≠ 0 ∧
    ∃ s, hm_calc_required_memory_size 0 4 4 10 = some s ∧
      s.record_size = (26 + 10) % U64 ∧
      s.data_size = s.record_size * 4 % U64 ∧
      s.memory_size = get_aligned_size ((header_sizeof + s.bucket_flags_size +
        s.buckets_size + s.free_blocks_size + s.data_size) % U64) :=
  ⟨by decide, by decide, hm_calc_record_mode_fields 4 4 10 (by decide) (by decide)⟩

/-- C6 counterexample.  The claim says the stored hash is the 64-bit djb2
hash of all `key_len` key bytes.  `hash_string` is a C-string loop that
stops at the first NUL: inserting the 3-byte key `"a\x00b"` stores hash
177670 (djb2 of `"a"` alone), not 193482728 (djb2 of all three bytes). -/
theorem stored_hash_stops_at_nul_cex :
    (hm_insert regT0 [97, 0, 98] 3 [120] 1).1 = HM_OK ∧
    regN1.buckets.getD 2 0 = 136 ∧
    read64 regN1.data 136 = 177670 ∧
    hash_string [97, 0, 98] = 177670 ∧
    djb2_64 [97, 0, 98] = 193482728 ∧ (177670 : Nat) ≠ 193482728 := by
  decide

set_option maxRecDepth 8000 in
/-- Helper for C6: the hash loop from any accumulator equals the djb2 fold
over the prefix before the first NUL, for bytes below 128 (at or above 128
the `int` promotion of the signed `char` contributes `b - 256` instead). -/
theorem hash_string_go_djb2 (key : List Nat) :
    ∀ h, (∀ b ∈ key, b < 128) →
      hash_string_go h key =
        (key.takeWhile (fun b => b != 0)).foldl (fun h b => (33 * h + b) % U64) h := by
  induction key with
  | nil => intro h _; simp [hash_string_go]
  | cons b bs ih =>
    intro h hlt
    by_cases hb : b = 0
    · subst hb; simp [hash_string_go, List.takeWhile]
    · have hb' : (b != 0) = true := by simpa using hb
      simp only [hash_string_go, List.takeWhile, hb', reduceIte, hb, List.foldl]
      have hstep : hash_step h b = (33 * h + b) % U64 := by
        unfold hash_step
        rw [if_pos (hlt b (by simp))]
      rw [hstep]
      exact ih ((33 * h + b) % U64) (fun x hx => hlt x (by simp [hx]))

/-- C6 amended.  The hash stored and used for probing is `hash_string`,
which equals the 64-bit djb2 hash of the key bytes strictly before the
first NUL byte (not of all `key_len` bytes); stated for ASCII bytes, the
signed-`char` promotion making bytes at or above 128 contribute shifted
values. -/
theorem hash_string_eq_djb2_before_nul (key : List Nat)
    (h : ∀ b ∈ key, b < 128) :
    hash_string key = djb2_64 (key.takeWhile (fun b => b != 0)) := by
  unfold hash_string djb2_64
  exact hash_string_go_djb2 key 5381 h

/-- C6 witness: the NUL-free key `"hi"` hashes to the djb2 of its NUL-free
prefix (itself). -/
theorem hash_string_eq_djb2_before_nul_witness :
    (∀ b ∈ [104, 105], b < 128) ∧
    hash_string [104, 105] = djb2_64 (List.takeWhile (fun b => b != 0) [104, 105]) :=
  ⟨by decide, hash_string_eq_djb2_before_nul [104, 105] (by decide)⟩

/-- C7.  The claim says that after every successful operation the popcount
of the bucket-flags bitmap equals the number of distinct live keys.  On
the reachable 33-bucket map, inserting one key at slot 32 succeeds (one
live key, slot offset written) but the 32-bit flag mask sets no bit, so the
popcount is 0. -/
theorem bucket_flags_popcount_zero_after_insert :
    (hm_insert reg33 [65] 1 [120] 1).1 = HM_OK ∧
    count_bucket_flags (hm_insert reg33 [65] 1 [120] 1).2 = 0 ∧
    (hm_insert reg33 [65] 1 [120] 1).2.buckets.getD 32 0 ≠ 0 := by
  decide

set_option maxRecDepth 8000 in
/-- C8.  The claim says a same-size `set(K, V2)` after `set(K, V1)`
overwrites in place leaving `data_tail` (and everything else) unchanged.
On the 33-bucket map the first insert's used bit is lost (index 32), so the
second same-size insert misses the record and appends a whole new one:
`data_tail` moves from 372 to 400. -/
theorem same_size_overwrite_advances_data_tail :
    (hm_insert reg33 [65] 1 [120] 1).1 = HM_OK ∧
    (hm_insert (hm_insert reg33 [65] 1 [120] 1).2 [65] 1 [121] 1).1 = HM_OK ∧
    (hm_insert reg33 [65] 1 [120] 1).2.data_tail = 372 ∧
    (hm_insert (hm_insert reg33 [65] 1 [120] 1).2 [65] 1 [121] 1).2.data_tail = 400 := by
  decide

set_option maxRecDepth 8000 in
/-- C9.  Deleting a key the probe does not find returns `HM_NOT_FOUND`
and returns the region exactly as it was: no byte of the header, bitmap,
buckets, freelist or arena changes. -/
theorem hm_delete_missing_key_no_mutation (reg : Region) (key : List Nat)
    (key_len : Nat) (h : (find_record reg key key_len).1 = none) :
    hm_delete reg key key_len = (HM_NOT_FOUND, reg) := by
  unfold hm_delete
  rcases hfr : find_record reg key key_len with ⟨r, i⟩
  rw [hfr] at h
  simp only at h
  subst h
  rfl

/-- C9 witness: deleting `"a"` from the freshly initialized `regT0`. -/
theorem hm_delete_missing_key_no_mutation_witness :
    (find_record regT0 [97] 1).1 = none ∧
    hm_delete regT0 [97] 1 = (HM_NOT_FOUND, regT0) :=
  ⟨by decide, hm_delete_missing_key_no_mutation regT0 [97] 1 (by decide)⟩

/-- C10 counterexample.  The claim says the adjacency-merge read
`freelist[left]` in `add_free_block` always has `left < num_free_blocks`.
On the reachable `regF3` (one live entry of stored size 36, capacity 2),
the `add_free_block` call issued by deleting `"b"` (stored size 32 + 8 =
40, larger than every live entry) computes `left = 1 = num_free_blocks`,
one past the live prefix. -/
theorem add_free_block_left_eq_num_cex :
    regF3.num_free_blocks = 1 ∧ regF3.max_free_blocks = 2 ∧
    read64 regF3.data 120 = 36 ∧
    stored_record_size regF3 148 = 32 ∧
    (hm_delete regF3 [98] 1).1 = HM_OK ∧
    add_free_block_left regF3 (32 + 8) = 1 := by
  decide

/-- Helper for C10: the binary-search result stays within `[0, n]` when
started with `0 ≤ left ≤ n` and `right < n`. -/
theorem afb_search_le (reg : Region) (size : Nat) (n : Int) :
    ∀ fuel (left right : Int), 0 ≤ left → left ≤ n → right < n →
      0 ≤ afb_search reg size fuel left right ∧ afb_search reg size fuel left right ≤ n := by
  intro fuel
  induction fuel with
  | zero => intro left right hl hn hr; simp only [afb_search]; omega
  | succ m ih =>
    intro left right hl hn hr
    simp only [afb_search]
    by_cases hc : left ≤ right
    · simp only [hc, reduceIte, if_pos]
      by_cases hlt : read64 reg.data (reg.freelist.getD ((left + right) / 2).toNat 0) < size
      · simp only [hlt, reduceIte]
        exact ih ((left + right) / 2 + 1) right (by omega) (by omega) hr
      · simp only [hlt, reduceIte]
        exact ih left ((left + right) / 2 - 1) hl hn (by omega)
    · simp only [hc, reduceIte]
      omega

/-- C10 amended.  The insertion point `left` computed by `add_free_block`
satisfies `left ≤ num_free_blocks` — it equals `num_free_blocks` (one past
the live prefix, a stale slot) precisely when every live block is smaller —
and under the function's precondition `num_free_blocks < max_free_blocks`
the read of `freelist[left]` stays inside the allocated array. -/
theorem add_free_block_left_within_array (reg : Region) (size : Nat)
    (h : reg.num_free_blocks < reg.max_free_blocks) :
    add_free_block_left reg size ≤ reg.num_free_blocks ∧
    add_free_block_left reg size < reg.max_free_blocks := by
  unfold add_free_block_left
  by_cases h0 : reg.num_free_blocks = 0
  · simp only [h0, reduceIte]; omega
  · simp only [h0, reduceIte]
    have hb := afb_search_le reg size (reg.num_free_blocks : Int)
      (reg.num_free_blocks + 1) 0 ((reg.num_free_blocks : Int) - 1)
      (by omega) (by omega) (by omega)
    omega

/-- C10 witness: on `regF3` with the second delete's stored size 40, the
computed insertion point is within the 2-slot array. -/
theorem add_free_block_left_within_array_witness :
    regF3.num_free_blocks < regF3.max_free_blocks ∧
    (add_free_block_left regF3 40 ≤ regF3.num_free_blocks ∧
      add_free_block_left regF3 40 < regF3.max_free_blocks) :=
  ⟨by decide, add_free_block_left_within_array regF3 40 (by decide)⟩
